import Mathlib

/-!
Verification of the context-selection and summarization pipeline of the
UAVLogViewer backend (files `app/service/llm_router.py`,
`app/service/summariser.py`, `app/core/session_store.py`).

The Python code is shallowly embedded:
* a pandas `DataFrame` becomes a `DataFrame` structure (a column schema
  plus a list of rows of values);
* JSON serialization (`to_json(orient="records")`, `json.dumps`) becomes
  explicit string-building functions;
* the per-column floating-point statistics produced by
  `DataFrame.describe()` are abstracted by the *set of columns the digest
  covers* (the spec declares exact numeric precision of statistical
  summaries a non-goal), rendered with a fixed placeholder;
* the remote LLM backend becomes an explicit oracle argument; a call that
  raises (timeout, network error) or returns unparseable structured
  output is a distinguished oracle outcome, and functions that can let a
  Python exception escape return `Except PyErr _`;
* `functools.lru_cache(maxsize=256)` becomes an explicit LRU state
  threaded through calls;
* the `SessionStore` dictionaries become functions `String → Option _`.
-/

/-- A single cell value of a telemetry table.  Numeric telemetry values are
modelled by integers: no claim performs arithmetic on cell values, only
equality tests (`drop_duplicates`), so the carrier only needs decidable
equality. -/
inductive Val
  | num (i : Int)
  | str (s : String)
deriving DecidableEq

/-- A row of a table: the cell values, aligned with the column schema. -/
abbrev Row := List Val

/-- Whether a column holds numeric or textual data (pandas dtype, coarsened). -/
inductive ColKind
  | numeric
  | textual
deriving DecidableEq

def ColKind.isNumeric : ColKind → Bool
  | .numeric => true
  | .textual => false

/-- A pandas `DataFrame`: a named, kinded column schema and the data rows.
`len(df)` is `df.rows.length`. -/
structure DataFrame where
  columns : List (String × ColKind)
  rows : List Row
deriving DecidableEq

/-- The column names, in order. -/
def DataFrame.colNames (df : DataFrame) : List String :=
  df.columns.map Prod.fst

/-- The names of the numeric columns, in order. -/
def DataFrame.numericColNames (df : DataFrame) : List String :=
  (df.columns.filter (fun c => c.2.isNumeric)).map Prod.fst

/-- pandas `DataFrame.empty`: true when any axis has length 0. -/
def DataFrame.empty (df : DataFrame) : Bool :=
  df.rows.isEmpty || df.columns.isEmpty

/-- Rendering of one cell for `to_json(orient="records")`. -/
def Val.render : Val → String
  | .num i => toString i
  | .str s => "\x22" ++ s ++ "\x22"

/-- One record of `to_json(orient="records")`: the row as a JSON object. -/
def renderRow (cols : List String) (r : Row) : String :=
  "\x7b" ++ String.intercalate ","
    ((List.zip cols r).map (fun p => "\x22" ++ p.1 ++ "\x22:" ++ p.2.render)) ++ "\x7d"

/-- `df.to_json(orient="records")`: a JSON array of row objects. -/
def recordsJson (cols : List String) (rows : List Row) : String :=
  "[" ++ String.intercalate "," (rows.map (renderRow cols)) ++ "]"

/-- The set of columns covered by `df.describe()`.  pandas semantics
(`DataFrame.describe`, default `include`/`exclude`): for a frame with mixed
dtypes only the numeric columns are described; "if the dataframe consists
only of object and categorical data without any numeric columns, the
default is to return an analysis of both the object and categorical
columns". (pandas raises on a frame with no columns at all; telemetry
tables always carry at least one field, and the model returns `[]` in that
degenerate case.) -/
def describeCols (df : DataFrame) : List String :=
  if df.numericColNames.isEmpty then df.colNames else df.numericColNames

/-- The JSON text of `json.dumps(df.describe().to_dict(), default=str)`,
with the per-column floating-point statistics (count, mean, std, min,
quartiles, max) abstracted by a fixed placeholder: which columns the
digest covers is what the development reasons about, the float values are
out of scope. -/
def digestJson (cols : List String) : String :=
  "\x7b" ++ String.intercalate ","
    (cols.map (fun c => "\x22" ++ c ++ "\x22:\x22stats\x22")) ++ "\x7d"

/-- Embeds `_describe_df` (summariser.py line 16): the statistical digest of
the frame as a JSON string. -/
def _describe_df (df : DataFrame) : String :=
  digestJson (describeCols df)

/-- `df.iloc[::step]` for `step ≥ 1`: every `step`-th row, starting from the
first row. -/
def strideSample (step : Nat) : List Row → List Row
  | [] => []
  | a :: l => a :: strideSample step (l.drop (step - 1))
termination_by l => l.length
decreasing_by
  simp only [List.length_drop, List.length_cons]
  omega

/-- Embeds `_sample_df` (summariser.py line 10): all rows when the frame is
small, otherwise a stride-sampled subset with stride
`max(1, len(df) // keep_rows)`. -/
def _sample_df (keep_rows : Nat) (rows : List Row) : List Row :=
  if rows.length ≤ keep_rows then rows
  else strideSample (max 1 (rows.length / keep_rows)) rows

/-- `drop_duplicates` keeping the first occurrence of each distinct row,
relative to a set of rows already seen. -/
def dedupKeepFirst [DecidableEq α] (seen : List α) : List α → List α
  | [] => []
  | a :: l => if a ∈ seen then dedupKeepFirst seen l
              else a :: dedupKeepFirst (a :: seen) l

/-- pandas `drop_duplicates` (default `keep="first"`): removes rows that are
exact value-duplicates of an earlier row, preserving order. -/
def dropDuplicates [DecidableEq α] (l : List α) : List α :=
  dedupKeepFirst [] l

/-- `df.head(300)` (summariser.py line 28). -/
def headRows (rows : List Row) : List Row :=
  rows.take 300

/-- `df.iloc[n//2 - 150 : n//2 + 150]` (summariser.py line 29): the 300 rows
centered at the midpoint index.  The branch that uses it guarantees
`n > 500`, so the start index is nonnegative and the Python slice never
wraps around. -/
def midRows (rows : List Row) : List Row :=
  (rows.drop (rows.length / 2 - 150)).take 300

/-- `df.tail(300)` (summariser.py line 30). -/
def tailRows (rows : List Row) : List Row :=
  rows.drop (rows.length - 300)

/-- `pd.concat([head, mid, tail]).drop_duplicates()` (summariser.py line 31). -/
def midMerged (rows : List Row) : List Row :=
  dropDuplicates (headRows rows ++ midRows rows ++ tailRows rows)

/-- The note attached to the hybrid payload (summariser.py line 41):
`f"Sampled from \x7bn\x7d rows to fit context limits"`. -/
def noteString (n : Nat) : String :=
  "Sampled from " ++ toString n ++ " rows to fit context limits"

/-- The hybrid payload (summariser.py lines 38-42):
`json.dumps(\x7b"sample": ..., "summary": ..., "note": ...\x7d, indent=2)`. -/
def hybridJson (cols : List String) (sample : List Row) (digest : String)
    (n : Nat) : String :=
  "\x7b\n  \x22sample\x22: " ++ recordsJson cols sample ++
  ",\n  \x22summary\x22: " ++ digest ++
  ",\n  \x22note\x22: \x22" ++ noteString n ++ "\x22\n\x7d"

/-- Embeds `summarise_df` (summariser.py lines 20-42) with the default
`max_rows = 10000` used by its only caller:
* `n ≤ 500`: full serialization of every row;
* `500 < n ≤ 10000`: head(300) + mid(300) + tail(300), duplicates dropped;
* `n > 10000`: hybrid payload of statistical digest and stride sample. -/
def summarise_df (df : DataFrame) : String :=
  if df.rows.length ≤ 500 then recordsJson df.colNames df.rows
  else if df.rows.length ≤ 10000 then recordsJson df.colNames (midMerged df.rows)
  else hybridJson df.colNames (_sample_df 300 df.rows) (_describe_df df) df.rows.length

/-! ## `llm_router.py`: Type Selector -/

/-- Result of `json.loads` on the structured `arguments` string of a
function call, followed by `payload.get("message_types", [])`: either the
string is not valid JSON (`json.loads` raises) or it parses and the
`message_types` key is present or absent. -/
inductive ArgsParse
  | malformed
  | parsed (message_types : Option (List String))
deriving DecidableEq

/-- The `function_call` entry of an OpenAI response. -/
structure FunctionCall where
  arguments : ArgsParse
deriving DecidableEq

/-- Outcome of one call to the reasoning backend (`_llm(...)`): the call can
raise (request timeout, network error), or return a response that carries
an optional `function_call`. -/
inductive BackendOutcome
  | raise
  | response (function_call : Option FunctionCall)
deriving DecidableEq

/-- Python exceptions that can escape the router functions. -/
inductive PyErr
  | llmError
  | jsonDecodeError
deriving DecidableEq

/-- The recent-conversation context block (llm_router.py lines 77-80 and
94-98): empty for an empty tuple, otherwise a header plus the last 2
messages, one `- `-prefixed line each. -/
def recentContext (recent_user_msgs : List String) : String :=
  if recent_user_msgs.isEmpty then ""
  else "\n\nRecent conversation context (for reference only, focus on the current question):\n" ++
    String.intercalate "\n"
      ((recent_user_msgs.drop (recent_user_msgs.length - 2)).map (fun msg => "- " ++ msg))

/-- The user prompt of `infer_message_types_llm` (llm_router.py line 82). -/
def inferPrompt (question : String) (recent_user_msgs : List String) : String :=
  "Current question: " ++ question ++ recentContext recent_user_msgs

/-- Embeds the body of `infer_message_types_llm` (llm_router.py lines
64-90), with the backend as an explicit oracle from the prompt to an
outcome.  The function has no exception handler: a raising backend call or
a `json.loads` failure escapes as `Except.error`; otherwise the selected
types are intersected with the valid set and an empty selection falls back
to `{"ERR"}`. -/
def infer_message_types_llm (oracle : String → BackendOutcome) (question : String)
    (recent_user_msgs : List String) (types : Finset String) :
    Except PyErr (Finset String) :=
  match oracle (inferPrompt question recent_user_msgs) with
  | .raise => .error .llmError
  | .response none => .ok {"ERR"}
  | .response (some fc) =>
    match fc.arguments with
    | .malformed => .error .jsonDecodeError
    | .parsed mts =>
      if (mts.getD []).toFinset ∩ types = ∅ then .ok {"ERR"}
      else .ok ((mts.getD []).toFinset ∩ types)

/-- Outcome of the refiner backend call (`_llm(...)` in
`refine_types_with_llm`): raise, or a response with a free-text content. -/
inductive RefineOutcome
  | raise
  | response (content : String)
deriving DecidableEq

/-- The user prompt of `refine_types_with_llm` (llm_router.py lines
100-106). -/
def refinePrompt (question : String) (recent_user_msgs : List String)
    (raw_types : List String) : String :=
  "Original question: " ++ question ++ recentContext recent_user_msgs ++
  "\n\nCandidate types: " ++
  String.intercalate ", " (raw_types.mergeSort (fun a b => a ≤ b)) ++
  "\n\nReturn the refined list of message types that are *most relevant* and *minimally sufficient* " ++
  "to answer the current question. Focus primarily on the current question and only use recent messages " ++
  "if they provide necessary context. Respond ONLY with a comma-separated list (no commentary)."

/-- Helper for `splitCommas`, walking the character list with the
accumulated current token (reversed). -/
def splitCommasAux : List Char → List Char → List String
  | [], acc => [String.mk acc.reverse]
  | c :: cs, acc =>
    if c = ',' then String.mk acc.reverse :: splitCommasAux cs []
    else splitCommasAux cs (c :: acc)

/-- Python `str.split(",")`: the maximal comma-free chunks, including empty
ones (`"a,,b"` gives `["a", "", "b"]`, `""` gives `[""]`).  Defined by
structural recursion on the character list (Lean's own `String.splitOn`
uses well-founded recursion, which the kernel cannot evaluate). -/
def splitCommas (s : String) : List String :=
  splitCommasAux s.data []

/-- Python `str.strip()`: leading and trailing whitespace removed. -/
def pyStrip (s : String) : String :=
  String.mk (((s.data.dropWhile Char.isWhitespace).reverse.dropWhile
    Char.isWhitespace).reverse)

/-- Embeds `refine_types_with_llm` (llm_router.py lines 93-110).  A
non-empty reply is split on commas, each token stripped, empty tokens
dropped, and the resulting set returned *without any filtering against
`raw_types`*; an empty reply falls back to the full candidate set; a
raising backend call escapes. -/
def refine_types_with_llm (oracle : String → RefineOutcome) (question : String)
    (recent_user_msgs : List String) (raw_types : List String) :
    Except PyErr (Finset String) :=
  match oracle (refinePrompt question recent_user_msgs raw_types) with
  | .raise => .error .llmError
  | .response content =>
    if content = "" then .ok raw_types.toFinset
    else .ok ((((splitCommas content).map pyStrip).filter
                (fun t => t ≠ "")).toFinset)

/-! ### The `@lru_cache(maxsize=256)` decoration of `infer_message_types_llm`

`functools.lru_cache` memoizes by exact argument tuple, holds at most
`maxsize` entries, evicts the least recently used entry, and does not
cache a call that raised. -/

/-- The memoization key: `(question, recent_user_msgs, types)`. -/
abbrev InferKey := String × List String × Finset String

/-- State of the bounded LRU memoization cache: entries most-recent-first,
plus the log of backend invocations (the argument key of every call that
reached the wrapped body), oldest first. -/
structure LruState where
  entries : List (InferKey × Finset String)
  log : List InferKey

def LruState.start : LruState := ⟨[], []⟩

/-- The cached value for a key, if present. -/
def lruLookup (st : LruState) (k : InferKey) : Option (Finset String) :=
  (st.entries.find? (fun e => decide (e.1 = k))).map (fun e => e.2)

/-- One call through the `lru_cache` wrapper of `infer_message_types_llm`.
On a hit the cached set is returned and the entry moves to the
most-recent position; on a miss the body runs (one backend invocation,
recorded in the log, with the oracle indexed by the invocation number so
that distinct invocations may answer differently): a normal result is
inserted at the most-recent position, trimming to 256 entries, while a
raised exception is propagated and nothing is cached. -/
def infer_message_types_llm_cached (oracle : Nat → String → BackendOutcome)
    (cst : LruState) (question : String) (recent_user_msgs : List String)
    (types : Finset String) : Except PyErr (Finset String) × LruState :=
  let k : InferKey := (question, recent_user_msgs, types)
  match cst.entries.find? (fun e => decide (e.1 = k)) with
  | some e =>
    (.ok e.2, ⟨(k, e.2) :: cst.entries.filter (fun e2 => decide (e2.1 ≠ k)), cst.log⟩)
  | none =>
    match infer_message_types_llm (oracle cst.log.length) question recent_user_msgs types with
    | .ok v => (.ok v, ⟨((k, v) :: cst.entries).take 256, cst.log ++ [k]⟩)
    | .error err => (.error err, ⟨cst.entries, cst.log ++ [k]⟩)

/-- Run a sequence of cached-selector calls, keeping only the cache state. -/
def runInferCalls (oracle : Nat → String → BackendOutcome) (st : LruState)
    (ks : List InferKey) : LruState :=
  ks.foldl (fun st k => (infer_message_types_llm_cached oracle st k.1 k.2.1 k.2.2).2) st

/-! ## `session_store.py` and `build_context` -/

/-- The telemetry accessor (`models/telemetry_data.py`, consumed through
`tdata.get_df`): a message type resolves to a frame or to nothing. -/
structure TelemetryData where
  get_df : String → Option DataFrame

/-- `UpdatedSessionMetadata` (session_store.py lines 6-9): the per-session
metadata record; note that `topics` is itself a dictionary, keyed (by the
code) a second time by the session id. -/
structure UpdatedSessionMetadata where
  last_msg_types : Option (List String)
  topics : String → Option String

def UpdatedSessionMetadata.start : UpdatedSessionMetadata :=
  ⟨none, fun _ => none⟩

/-- One conversation message (session_store.py lines 11-14). -/
structure Message where
  role : String
  content : String

/-- `SessionStore` (session_store.py lines 17-24): the in-memory session
cache; each Python dictionary becomes a function to `Option`. -/
structure SessionStore where
  telemetry : String → Option TelemetryData
  intents : String → Option String
  conversation_history : String → Option (List Message)
  metadata : String → Option UpdatedSessionMetadata
  cached_contexts : String → Option (String → Option String)

/-- A freshly constructed store: every dictionary empty. -/
def SessionStore.start : SessionStore :=
  ⟨fun _ => none, fun _ => none, fun _ => none, fun _ => none, fun _ => none⟩

/-- `get_cached_context` (session_store.py lines 47-48):
`self.cached_contexts.get(session_id, \x7b\x7d).get(msg_type)`. -/
def SessionStore.get_cached_context (st : SessionStore) (session_id msg_type : String) :
    Option String :=
  ((st.cached_contexts session_id).getD (fun _ => none)) msg_type

/-- `cache_context` (session_store.py lines 50-53): create the per-session
dictionary if missing, then set its `msg_type` entry. -/
def SessionStore.cache_context (st : SessionStore) (session_id msg_type summary : String) :
    SessionStore :=
  { st with cached_contexts := fun s =>
      if s = session_id then
        some (fun k => if k = msg_type then some summary
              else ((st.cached_contexts session_id).getD (fun _ => none)) k)
      else st.cached_contexts s }

/-- `set_topic` (session_store.py lines 39-42): create the per-session
metadata record if missing, then set `metadata[session_id].topics[session_id]`
— the topics dictionary is keyed a second time by the session id. -/
def SessionStore.set_topic (st : SessionStore) (session_id topic : String) :
    SessionStore :=
  let md := (st.metadata session_id).getD UpdatedSessionMetadata.start
  { st with metadata := fun s =>
      if s = session_id then
        some { md with topics := fun k => if k = session_id then some topic else md.topics k }
      else st.metadata s }

/-- `get_topic` (session_store.py lines 44-45):
`self.metadata.get(session_id, UpdatedSessionMetadata()).topics.get(session_id, "")`. -/
def SessionStore.get_topic (st : SessionStore) (session_id : String) : String :=
  ((((st.metadata session_id).getD UpdatedSessionMetadata.start).topics session_id).getD "")

/-- `set_intent` (session_store.py lines 33-34). -/
def SessionStore.set_intent (st : SessionStore) (session_id intent : String) :
    SessionStore :=
  { st with intents := fun s => if s = session_id then some intent else st.intents s }

/-- `get_intent` (session_store.py lines 36-37). -/
def SessionStore.get_intent (st : SessionStore) (session_id : String) : String :=
  (st.intents session_id).getD "unknown"

/-- `set_last_msg_types` (session_store.py lines 55-58). -/
def SessionStore.set_last_msg_types (st : SessionStore) (session_id : String)
    (msg_types : List String) : SessionStore :=
  let md := (st.metadata session_id).getD UpdatedSessionMetadata.start
  { st with metadata := fun s =>
      if s = session_id then some { md with last_msg_types := some msg_types }
      else st.metadata s }

/-- `add_session` (session_store.py lines 29-31). -/
def SessionStore.add_session (st : SessionStore) (session_id : String)
    (data : TelemetryData) : SessionStore :=
  { st with
    telemetry := fun s => if s = session_id then some data else st.telemetry s,
    intents := fun s => if s = session_id then some "unknown" else st.intents s }

/-- `add_message` (session_store.py lines 66-70). -/
def SessionStore.add_message (st : SessionStore) (session_id role content : String) :
    SessionStore :=
  { st with conversation_history := fun s =>
      if s = session_id then
        some ((st.conversation_history session_id).getD [] ++ [⟨role, content⟩])
      else st.conversation_history s }

/-- The fetch-and-summarise path of one `build_context` iteration
(summariser.py lines 53-58), taken when there is no (truthy) cached
summary: the frame is fetched (recorded in the fetch log); an absent or
empty frame is skipped; otherwise the summary is computed, cached, and
emitted as a fresh section. -/
def bcFetch (tdata : TelemetryData) (session_id : String)
    (parts : List String) (st : SessionStore) (fetched : List String) (m : String) :
    List String × SessionStore × List String :=
  match tdata.get_df m with
  | none => (parts, st, fetched ++ [m])
  | some df =>
    if df.empty then (parts, st, fetched ++ [m])
    else
      let summary := summarise_df df
      (parts ++ ["### " ++ m ++ " (" ++ toString df.rows.length ++ " rows)\n" ++ summary],
       st.cache_context session_id m summary,
       fetched ++ [m])

/-- One `build_context` loop iteration (summariser.py lines 46-58).  The
Python guard is `if cached:` on an `Optional[str]`, so a cached *empty*
string is falsy and falls through to the fetch path; a truthy cached
summary is emitted verbatim with a `(cached)` marker and nothing is
fetched. -/
def bcStep (tdata : TelemetryData) (session_id : String)
    (acc : List String × SessionStore × List String) (m : String) :
    List String × SessionStore × List String :=
  match acc with
  | (parts, st, fetched) =>
    match st.get_cached_context session_id m with
    | some c =>
      if c = "" then bcFetch tdata session_id parts st fetched m
      else (parts ++ ["### " ++ m ++ " (cached)\n" ++ c], st, fetched)
    | none => bcFetch tdata session_id parts st fetched m

/-- The value returned by `build_context` plus the observable effects the
claims are about: the section list, the updated store, and the log of
message types for which `tdata.get_df` was invoked. -/
structure BuildResult where
  context : String
  parts : List String
  store : SessionStore
  fetched : List String

/-- Embeds `build_context` (summariser.py lines 44-59).  The Python loop
iterates over a `set[str]`; the iteration order is modelled by the order
of the input list.  The final line is
`"\n\n".join(parts) or "No relevant data found."`: the joined string is
returned unless it is falsy (empty). -/
def build_context (tdata : TelemetryData) (msg_types : List String)
    (session_id : String) (st : SessionStore) : BuildResult :=
  match msg_types.foldl (bcStep tdata session_id) ([], st, []) with
  | (parts, st', fetched) =>
    ⟨if String.intercalate "\n\n" parts = "" then "No relevant data found."
      else String.intercalate "\n\n" parts,
     parts, st', fetched⟩

/-- One `build_context` invocation, for sequencing repeated calls. -/
structure CallSpec where
  tdata : TelemetryData
  msg_types : List String
  session_id : String

/-- Run a sequence of `build_context` calls on a store. -/
def runCalls (st : SessionStore) (calls : List CallSpec) : SessionStore :=
  calls.foldl (fun st c => (build_context c.tdata c.msg_types c.session_id st).store) st

/-- The public mutating operations of `SessionStore`, for stating temporal
properties over arbitrary operation sequences. -/
inductive Op
  | setTopic (session_id topic : String)
  | setIntent (session_id intent : String)
  | setLastMsgTypes (session_id : String) (msg_types : List String)
  | cacheContext (session_id msg_type summary : String)
  | addSession (session_id : String) (data : TelemetryData)
  | addMessage (session_id role content : String)

def applyOp (st : SessionStore) : Op → SessionStore
  | .setTopic s t => st.set_topic s t
  | .setIntent s i => st.set_intent s i
  | .setLastMsgTypes s l => st.set_last_msg_types s l
  | .cacheContext s m v => st.cache_context s m v
  | .addSession s d => st.add_session s d
  | .addMessage s r c => st.add_message s r c

def applyOps (st : SessionStore) (ops : List Op) : SessionStore :=
  ops.foldl applyOp st

/-! ## Basic lemmas about the embedded operations -/

theorem mem_dedupKeepFirst [DecidableEq α] (x : α) :
    ∀ (l seen : List α), x ∈ dedupKeepFirst seen l ↔ x ∈ l ∧ x ∉ seen := by
  intro l
  induction l with
  | nil => intro seen; simp [dedupKeepFirst]
  | cons a t ih =>
    intro seen
    by_cases ha : a ∈ seen
    · rw [dedupKeepFirst, if_pos ha, ih]
      simp only [List.mem_cons]
      constructor
      · exact fun ⟨h1, h2⟩ => ⟨Or.inr h1, h2⟩
      · rintro ⟨rfl | h1, h2⟩
        · exact absurd ha h2
        · exact ⟨h1, h2⟩
    · rw [dedupKeepFirst, if_neg ha]
      simp only [List.mem_cons, ih, not_or]
      constructor
      · rintro (rfl | ⟨h1, h2, h3⟩)
        · exact ⟨Or.inl rfl, ha⟩
        · exact ⟨Or.inr h1, h3⟩
      · rintro ⟨rfl | h1, h2⟩
        · exact Or.inl rfl
        · by_cases hxa : x = a
          · exact Or.inl hxa
          · exact Or.inr ⟨h1, hxa, h2⟩

theorem nodup_dedupKeepFirst [DecidableEq α] :
    ∀ (l seen : List α), (dedupKeepFirst seen l).Nodup := by
  intro l
  induction l with
  | nil => intro seen; simp [dedupKeepFirst]
  | cons a t ih =>
    intro seen
    by_cases ha : a ∈ seen
    · rw [dedupKeepFirst, if_pos ha]; exact ih seen
    · rw [dedupKeepFirst, if_neg ha]
      refine List.nodup_cons.mpr ⟨?_, ih (a :: seen)⟩
      intro hmem
      rcases (mem_dedupKeepFirst a t (a :: seen)).mp hmem with ⟨_, hns⟩
      exact hns (List.mem_cons_self a seen)

theorem length_dedupKeepFirst_le [DecidableEq α] :
    ∀ (l seen : List α), (dedupKeepFirst seen l).length ≤ l.length := by
  intro l
  induction l with
  | nil => intro seen; simp [dedupKeepFirst]
  | cons a t ih =>
    intro seen
    by_cases ha : a ∈ seen
    · rw [dedupKeepFirst, if_pos ha]
      exact Nat.le_succ_of_le (ih seen)
    · rw [dedupKeepFirst, if_neg ha]
      exact Nat.succ_le_succ (ih (a :: seen))

theorem mem_dropDuplicates [DecidableEq α] (x : α) (l : List α) :
    x ∈ dropDuplicates l ↔ x ∈ l := by
  simp [dropDuplicates, mem_dedupKeepFirst]

theorem nodup_dropDuplicates [DecidableEq α] (l : List α) :
    (dropDuplicates l).Nodup :=
  nodup_dedupKeepFirst l []

theorem length_dropDuplicates_le [DecidableEq α] (l : List α) :
    (dropDuplicates l).length ≤ l.length :=
  length_dedupKeepFirst_le l []

theorem strideSample_getElem? (step : Nat) (hstep : 1 ≤ step) :
    ∀ (l : List Row) (i : Nat), (strideSample step l)[i]? = l[i * step]? := by
  have key : ∀ (n : Nat) (l : List Row), l.length ≤ n → ∀ i,
      (strideSample step l)[i]? = l[i * step]? := by
    intro n
    induction n with
    | zero =>
      intro l hl i
      have hnil : l = [] := List.eq_nil_of_length_eq_zero (Nat.le_zero.mp hl)
      subst hnil
      simp [strideSample]
    | succ n ih =>
      intro l hl i
      cases l with
      | nil => simp [strideSample]
      | cons a t =>
        rw [strideSample]
        cases i with
        | zero => simp
        | succ j =>
          have hlen : (t.drop (step - 1)).length ≤ n := by
            simp only [List.length_drop]
            simp only [List.length_cons] at hl
            omega
          have harith : (j + 1) * step = (step - 1 + j * step) + 1 := by
            have h1 : (j + 1) * step = j * step + step := Nat.succ_mul j step
            omega
          rw [List.getElem?_cons_succ, ih (t.drop (step - 1)) hlen j, List.getElem?_drop,
            harith, List.getElem?_cons_succ]
  intro l i
  exact key l.length l (Nat.le_refl _) i

theorem recordsJson_ne_empty (cols : List String) (rows : List Row) :
    recordsJson cols rows ≠ "" := by
  intro h
  have hl := congrArg String.length h
  simp only [recordsJson, String.length_append] at hl
  have h1 : ("[" : String).length = 1 := rfl
  have h0 : ("" : String).length = 0 := rfl
  omega

theorem hybridJson_ne_empty (cols : List String) (sample : List Row)
    (digest : String) (n : Nat) : hybridJson cols sample digest n ≠ "" := by
  intro h
  have hl := congrArg String.length h
  simp only [hybridJson, String.length_append] at hl
  have h1 : ("\x7b\n  \x22sample\x22: " : String).length = 14 := rfl
  have h0 : ("" : String).length = 0 := rfl
  omega

theorem summarise_df_ne_empty (df : DataFrame) : summarise_df df ≠ "" := by
  unfold summarise_df
  split_ifs with h1 h2
  · exact recordsJson_ne_empty _ _
  · exact recordsJson_ne_empty _ _
  · exact hybridJson_ne_empty _ _ _ _

/-! ## Claim C1 -/

/-- **C1** (code-bug evidence).  The claim — and the function's own
docstring ("`\x7b"ERR"\x7d` if none selected or error occurred") — say that any
failure of the reasoning backend degrades to the fallback singleton
`\x7b"ERR"\x7d` and that no exception reaches the caller.  The code has no
exception handler: when the backend call raises (timeout, network error)
the exception propagates, and when the structured arguments are
unparseable the `json.loads` exception propagates.  Both are exhibited
here on concrete inputs. -/
theorem infer_failure_propagates :
    infer_message_types_llm (fun _ => .raise) "q" [] ∅ = .error .llmError ∧
    infer_message_types_llm (fun _ => .response (some ⟨.malformed⟩)) "q" [] ∅
      = .error .jsonDecodeError :=
  ⟨rfl, rfl⟩

/-! ## Claim C2 -/

/-- **C2** (counterexample).  The claim says every identifier produced by
the refinement backend that is not in the candidate list is filtered out.
With candidate list `["GPS"]` and a backend reply `"XKF4, AHR2"`,
`refine_types_with_llm` returns `\x7b"XKF4", "AHR2"\x7d`: the non-candidate
`"XKF4"` is returned, so the result is not a subset of the candidates. -/
theorem refine_no_filtering_cex :
    refine_types_with_llm (fun _ => .response "XKF4, AHR2") "q" [] ["GPS"]
      = .ok (["XKF4", "AHR2"].toFinset) ∧
    ("XKF4" : String) ∈ (["XKF4", "AHR2"].toFinset : Finset String) ∧
    ("XKF4" : String) ∉ (["GPS"].toFinset : Finset String) := by
  refine ⟨rfl, by decide, by decide⟩

/-- **C2** (amended).  `refine_types_with_llm` performs no filtering
against the candidate list: when the backend reply is non-empty, the
returned set is *exactly* the set of trimmed, non-empty comma-separated
tokens of the reply — every returned identifier is such a token (whether
or not it is a candidate), and every such token is returned (nothing is
filtered out); only when the reply is empty does the function fall back to
exactly the full candidate set (which is trivially a subset of the
candidates). -/
theorem refine_tokens_characterization (oracle : String → RefineOutcome)
    (question : String) (recent_user_msgs : List String) (raw_types : List String)
    (result : Finset String)
    (hok : refine_types_with_llm oracle question recent_user_msgs raw_types = .ok result) :
    ∃ c, oracle (refinePrompt question recent_user_msgs raw_types) = .response c ∧
      (c = "" → result = raw_types.toFinset) ∧
      (c ≠ "" →
        result = (((splitCommas c).map pyStrip).filter (fun t => t ≠ "")).toFinset ∧
        (∀ x ∈ result, ∃ t ∈ splitCommas c, x = pyStrip t ∧ pyStrip t ≠ "") ∧
        (∀ t ∈ splitCommas c, pyStrip t ≠ "" → pyStrip t ∈ result)) := by
  unfold refine_types_with_llm at hok
  split at hok
  · exact absurd hok (by simp)
  · rename_i content heq
    refine ⟨content, heq, ?_, ?_⟩
    · intro hc
      rw [if_pos hc] at hok
      injection hok with h
      exact h.symm
    · intro hc
      rw [if_neg hc] at hok
      injection hok with h
      refine ⟨h.symm, ?_, ?_⟩
      · intro x hx
        rw [← h] at hx
        rw [List.mem_toFinset, List.mem_filter] at hx
        obtain ⟨hmem, hne⟩ := hx
        rw [List.mem_map] at hmem
        obtain ⟨t, ht, htx⟩ := hmem
        refine ⟨t, ht, htx.symm, ?_⟩
        rw [htx]
        simpa using hne
      · intro t ht hne
        rw [← h]
        rw [List.mem_toFinset, List.mem_filter]
        exact ⟨List.mem_map_of_mem pyStrip ht, by simpa using hne⟩

/-- Witness for `refine_tokens_characterization` at a concrete
non-compliant backend reply. -/
theorem refine_tokens_characterization_witness :
    ∃ c, (fun _ => RefineOutcome.response "XKF4, AHR2")
        (refinePrompt "q" [] ["GPS"]) = RefineOutcome.response c ∧
      (c = "" → (["XKF4", "AHR2"].toFinset : Finset String) = (["GPS"].toFinset : Finset String)) ∧
      (c ≠ "" →
        (["XKF4", "AHR2"].toFinset : Finset String)
          = (((splitCommas c).map pyStrip).filter (fun t => t ≠ "")).toFinset ∧
        (∀ x ∈ (["XKF4", "AHR2"].toFinset : Finset String),
          ∃ t ∈ splitCommas c, x = pyStrip t ∧ pyStrip t ≠ "") ∧
        (∀ t ∈ splitCommas c, pyStrip t ≠ "" →
          pyStrip t ∈ (["XKF4", "AHR2"].toFinset : Finset String))) :=
  refine_tokens_characterization (fun _ => .response "XKF4, AHR2") "q" [] ["GPS"]
    (["XKF4", "AHR2"].toFinset) rfl

/-! ## Claim C3 -/

/-- **C3**: whenever `infer_message_types_llm` returns a selection (it can
also propagate a backend exception, see C1), the returned set is non-empty
and contained in the valid identifiers together with the fallback
identifier `"ERR"`. -/
theorem infer_result_nonempty_subset (oracle : String → BackendOutcome)
    (question : String) (recent_user_msgs : List String) (types : Finset String)
    (s : Finset String)
    (h : infer_message_types_llm oracle question recent_user_msgs types = .ok s) :
    s.Nonempty ∧ s ⊆ insert "ERR" types := by
  have herr : ∀ (u : Finset String), ({"ERR"} : Finset String) = u →
      u.Nonempty ∧ u ⊆ insert "ERR" types := by
    rintro u rfl
    refine ⟨⟨"ERR", Finset.mem_singleton_self "ERR"⟩, fun x hx => ?_⟩
    rw [Finset.mem_singleton] at hx
    subst hx
    exact Finset.mem_insert_self _ _
  unfold infer_message_types_llm at h
  split at h
  · exact absurd h (by simp)
  · injection h with h'
    exact herr s h'
  · split at h
    · exact absurd h (by simp)
    · rename_i hne
      split at h
      · injection h with h'
        exact herr s h'
      · rename_i hsel
        injection h with h'
        subst h'
        refine ⟨Finset.nonempty_iff_ne_empty.mpr hsel, ?_⟩
        exact Finset.inter_subset_right.trans (Finset.subset_insert _ _)

/-- Witness for `infer_result_nonempty_subset`: a backend response without
a function call yields the fallback singleton. -/
theorem infer_result_nonempty_subset_witness :
    (infer_message_types_llm (fun _ => .response none) "q" [] {"GPS"}
      = .ok {"ERR"}) ∧
    (({"ERR"} : Finset String).Nonempty ∧
      ({"ERR"} : Finset String) ⊆ insert "ERR" ({"GPS"} : Finset String)) :=
  ⟨rfl, infer_result_nonempty_subset (fun _ => .response none) "q" [] {"GPS"} {"ERR"} rfl⟩

/-! ## Claim C10 -/

/-- Applying an operation that is not a `set_topic` on session `s` leaves
`get_topic s` unchanged; in particular the double keying of the topics
dictionary by the session id never leaks a topic across sessions. -/
theorem get_topic_applyOp (st : SessionStore) (s : String) (op : Op)
    (hop : ∀ t₀, op ≠ Op.setTopic s t₀) :
    (applyOp st op).get_topic s = st.get_topic s := by
  cases op with
  | setTopic s' t₀ =>
    have hs : ¬s = s' := by
      intro h
      exact hop t₀ (by rw [h])
    simp only [applyOp, SessionStore.set_topic, SessionStore.get_topic, if_neg hs]
  | setIntent s' i =>
    simp only [applyOp, SessionStore.set_intent, SessionStore.get_topic]
  | setLastMsgTypes s' l =>
    by_cases hs : s = s'
    · subst hs
      simp only [applyOp, SessionStore.set_last_msg_types, SessionStore.get_topic,
        if_pos rfl, Option.getD_some]
      cases hmd : st.metadata s <;> simp [hmd, UpdatedSessionMetadata.start]
    · simp only [applyOp, SessionStore.set_last_msg_types, SessionStore.get_topic, if_neg hs]
  | cacheContext s' m v =>
    simp only [applyOp, SessionStore.cache_context, SessionStore.get_topic]
  | addSession s' d =>
    simp only [applyOp, SessionStore.add_session, SessionStore.get_topic]
  | addMessage s' r c =>
    simp only [applyOp, SessionStore.add_message, SessionStore.get_topic]

/-- **C10**: `set_topic`/`get_topic` behave as a per-session mutable cell —
writing then reading returns the written topic, a second write overwrites
the first — and a session on which `set_topic` was never called (over any
operation sequence from a fresh store) reads the empty string, the double
keying of the topics dictionary by the session id notwithstanding. -/
theorem set_topic_get_topic (st : SessionStore) (s t t' : String) (ops : List Op)
    (hno : ∀ t₀, Op.setTopic s t₀ ∉ ops) :
    (st.set_topic s t).get_topic s = t ∧
    ((st.set_topic s t).set_topic s t').get_topic s = t' ∧
    (applyOps SessionStore.start ops).get_topic s = "" := by
  refine ⟨?_, ?_, ?_⟩
  · simp [SessionStore.set_topic, SessionStore.get_topic]
  · simp [SessionStore.set_topic, SessionStore.get_topic]
  · have key : ∀ (l : List Op) (st₀ : SessionStore), (∀ t₀, Op.setTopic s t₀ ∉ l) →
        (applyOps st₀ l).get_topic s = st₀.get_topic s := by
      intro l
      induction l with
      | nil => intro st₀ _; rfl
      | cons op rest ih =>
        intro st₀ hno'
        have h1 : ∀ t₀, op ≠ Op.setTopic s t₀ := by
          intro t₀ h
          exact hno' t₀ (by rw [h]; exact List.mem_cons_self _ _)
        have h2 : ∀ t₀, Op.setTopic s t₀ ∉ rest := by
          intro t₀ hmem
          exact hno' t₀ (List.mem_cons_of_mem _ hmem)
        simp only [applyOps, List.foldl_cons]
        have := ih (applyOp st₀ op) h2
        simp only [applyOps] at this
        rw [this, get_topic_applyOp st₀ s op h1]
    rw [key ops SessionStore.start hno]
    rfl

/-- Witness for `set_topic_get_topic` on a fresh store with one unrelated
intervening operation. -/
theorem set_topic_get_topic_witness :
    ((SessionStore.start.set_topic "s" "alt").get_topic "s" = "alt") ∧
    (((SessionStore.start.set_topic "s" "alt").set_topic "s" "gps").get_topic "s" = "gps") ∧
    ((applyOps SessionStore.start [Op.setIntent "s2" "factual"]).get_topic "s" = "") :=
  set_topic_get_topic SessionStore.start "s" "alt" "gps" [Op.setIntent "s2" "factual"]
    (by intro t₀ h; simp at h)

/-! ## Claim C4 -/

/-- **C4**: on the middle tier (`500 < n ≤ 10000`) `summarise_df`
serializes exactly the union of the head window (first 300 rows), the mid
window (300 rows centered at the midpoint index) and the tail window (last
300 rows), with exact-duplicate rows removed: every serialized row comes
from one of the three windows, the serialized rows are pairwise distinct,
and there are at most 900 of them. -/
theorem summarise_df_mid_tier (df : DataFrame)
    (h1 : 500 < df.rows.length) (h2 : df.rows.length ≤ 10000) :
    summarise_df df = recordsJson df.colNames (midMerged df.rows) ∧
    (∀ r, r ∈ midMerged df.rows ↔
      (r ∈ headRows df.rows ∨ r ∈ midRows df.rows ∨ r ∈ tailRows df.rows)) ∧
    (midMerged df.rows).Nodup ∧
    (midMerged df.rows).length ≤ 900 := by
  refine ⟨?_, ?_, nodup_dropDuplicates _, ?_⟩
  · unfold summarise_df
    rw [if_neg (by omega), if_pos h2]
  · intro r
    rw [midMerged, mem_dropDuplicates]
    simp [or_assoc]
  · calc (midMerged df.rows).length
        ≤ (headRows df.rows ++ midRows df.rows ++ tailRows df.rows).length :=
          length_dropDuplicates_le _
      _ ≤ 900 := by
          simp only [List.length_append, headRows, midRows, tailRows,
            List.length_take, List.length_drop]
          omega

/-- A concrete middle-tier frame: 501 identical one-cell rows. -/
def c4df : DataFrame :=
  ⟨[("alt", ColKind.numeric)], List.replicate 501 [Val.num 7]⟩

/-- Witness for `summarise_df_mid_tier` at a 501-row frame. -/
theorem summarise_df_mid_tier_witness :
    summarise_df c4df = recordsJson c4df.colNames (midMerged c4df.rows) ∧
    (∀ r, r ∈ midMerged c4df.rows ↔
      (r ∈ headRows c4df.rows ∨ r ∈ midRows c4df.rows ∨ r ∈ tailRows c4df.rows)) ∧
    (midMerged c4df.rows).Nodup ∧
    (midMerged c4df.rows).length ≤ 900 :=
  summarise_df_mid_tier c4df
    (by simp only [c4df, List.length_replicate]; omega)
    (by simp only [c4df, List.length_replicate]; omega)

/-! ## Claim C5 -/

/-- `describe` covers exactly the numeric columns whenever there are any. -/
theorem describeCols_of_numeric_ne (df : DataFrame) (h : df.numericColNames ≠ []) :
    describeCols df = df.numericColNames := by
  unfold describeCols
  rw [if_neg]
  simpa using h

/-- With no numeric columns, `describe` falls back to all columns. -/
theorem describeCols_of_numeric_eq (df : DataFrame) (h : df.numericColNames = []) :
    describeCols df = df.colNames := by
  unfold describeCols
  rw [if_pos]
  simp [h]

/-- **C5**: on the large tier (`n > 10000`) `summarise_df` returns the
hybrid payload whose `sample` holds the rows taken at stride
`max(1, n / 300)` starting from the first row (row `i` of the sample is
row `i * stride` of the table), whose `summary` holds the statistical
digest (covering exactly the numeric fields whenever there are any), and
whose `note` spells the original row count and that sampling occurred. -/
theorem summarise_df_large (df : DataFrame) (h : 10000 < df.rows.length) :
    summarise_df df = hybridJson df.colNames
      (strideSample (max 1 (df.rows.length / 300)) df.rows)
      (digestJson (describeCols df)) df.rows.length ∧
    (∀ i, (strideSample (max 1 (df.rows.length / 300)) df.rows)[i]? =
      df.rows[i * max 1 (df.rows.length / 300)]?) ∧
    (df.numericColNames ≠ [] → describeCols df = df.numericColNames) ∧
    noteString df.rows.length =
      "Sampled from " ++ toString df.rows.length ++ " rows to fit context limits" := by
  refine ⟨?_, ?_, describeCols_of_numeric_ne df, rfl⟩
  · unfold summarise_df
    rw [if_neg (by omega), if_neg (by omega)]
    unfold _sample_df
    rw [if_neg (by omega)]
    rfl
  · exact fun i => strideSample_getElem? _ (le_max_left _ _) df.rows i

/-- A concrete large-tier frame: 10001 identical numeric rows. -/
def c5df : DataFrame :=
  ⟨[("alt", ColKind.numeric)], List.replicate 10001 [Val.num 0]⟩

/-- Witness for `summarise_df_large` at a 10001-row frame. -/
theorem summarise_df_large_witness :
    summarise_df c5df = hybridJson c5df.colNames
      (strideSample (max 1 (c5df.rows.length / 300)) c5df.rows)
      (digestJson (describeCols c5df)) c5df.rows.length ∧
    (∀ i, (strideSample (max 1 (c5df.rows.length / 300)) c5df.rows)[i]? =
      c5df.rows[i * max 1 (c5df.rows.length / 300)]?) ∧
    (c5df.numericColNames ≠ [] → describeCols c5df = c5df.numericColNames) ∧
    noteString c5df.rows.length =
      "Sampled from " ++ toString c5df.rows.length ++ " rows to fit context limits" :=
  summarise_df_large c5df (by simp only [c5df, List.length_replicate]; omega)

/-! ## Claim C6 -/

/-- A concrete large-tier frame with no numeric fields. -/
def c6df : DataFrame :=
  ⟨[("txt", ColKind.textual)], List.replicate 10001 [Val.str "x"]⟩

/-- **C6** (counterexample).  The claim says the digest is empty when the
table has no numeric fields.  On a 10001-row frame with the single textual
field `"txt"`, pandas `describe()` falls back to describing the object
columns: the digest covers `["txt"]` — it is not empty. -/
theorem describe_no_numeric_cex :
    c6df.numericColNames = [] ∧
    describeCols c6df = ["txt"] ∧
    describeCols c6df ≠ [] ∧
    summarise_df c6df = hybridJson c6df.colNames (_sample_df 300 c6df.rows)
      (digestJson (describeCols c6df)) c6df.rows.length := by
  refine ⟨rfl, rfl, by decide, ?_⟩
  unfold summarise_df
  rw [if_neg (by simp only [c6df, List.length_replicate]; omega),
    if_neg (by simp only [c6df, List.length_replicate]; omega)]
  rfl

/-- **C6** (amended).  On the large tier the statistical digest covers
exactly the numeric fields whenever the table has at least one numeric
field; when it has none, the digest instead covers *all* of the table's
fields (pandas `describe()` falls back to the object columns), so it is
not empty unless the table has no fields at all; the sample is produced
either way. -/
theorem summarise_df_digest_columns (df : DataFrame) (h : 10000 < df.rows.length) :
    summarise_df df = hybridJson df.colNames (_sample_df 300 df.rows)
      (digestJson (describeCols df)) df.rows.length ∧
    (df.numericColNames ≠ [] → describeCols df = df.numericColNames) ∧
    (df.numericColNames = [] → describeCols df = df.colNames) := by
  refine ⟨?_, describeCols_of_numeric_ne df, describeCols_of_numeric_eq df⟩
  unfold summarise_df
  rw [if_neg (by omega), if_neg (by omega)]
  rfl

/-- Witness for `summarise_df_digest_columns` at the numeric-free frame. -/
theorem summarise_df_digest_columns_witness :
    summarise_df c6df = hybridJson c6df.colNames (_sample_df 300 c6df.rows)
      (digestJson (describeCols c6df)) c6df.rows.length ∧
    (c6df.numericColNames ≠ [] → describeCols c6df = c6df.numericColNames) ∧
    (c6df.numericColNames = [] → describeCols c6df = c6df.colNames) :=
  summarise_df_digest_columns c6df (by simp only [c6df, List.length_replicate]; omega)

/-! ## Claim C7 -/

/-- When every message type of the list is skipped — no cached summary,
and the accessor yields no frame or an empty frame — the `build_context`
fold leaves the section list and the store untouched and only logs the
fetches. -/
theorem bc_fold_all_skipped (tdata : TelemetryData) (sid : String) :
    ∀ (l : List String) (parts : List String) (st : SessionStore) (f : List String),
      (∀ m ∈ l, st.get_cached_context sid m = none ∧
        (tdata.get_df m = none ∨ ∃ df, tdata.get_df m = some df ∧ df.empty = true)) →
      l.foldl (bcStep tdata sid) (parts, st, f) = (parts, st, f ++ l) := by
  intro l
  induction l with
  | nil => intro parts st f _; simp
  | cons m rest ih =>
    intro parts st f h
    obtain ⟨hc, hdf⟩ := h m (List.mem_cons_self _ _)
    have hrest := fun m' hm' => h m' (List.mem_cons_of_mem _ hm')
    have hfetch : bcFetch tdata sid parts st f m = (parts, st, f ++ [m]) := by
      rcases hdf with hnone | ⟨df, hsome, hemp⟩
      · simp [bcFetch, hnone]
      · simp [bcFetch, hsome, hemp]
    have hstep : bcStep tdata sid (parts, st, f) m = (parts, st, f ++ [m]) := by
      simp [bcStep, hc, hfetch]
    rw [List.foldl_cons, hstep, ih parts st (f ++ [m]) hrest]
    simp

/-- **C7**: when no identifier yields a section — for each requested
identifier there is no cached summary and the telemetry accessor returns
no frame or an empty frame — `build_context` returns exactly the fixed
fallback string, which in particular is not the empty string. -/
theorem build_context_no_data (tdata : TelemetryData) (msg_types : List String)
    (session_id : String) (st : SessionStore)
    (h : ∀ m ∈ msg_types, st.get_cached_context session_id m = none ∧
      (tdata.get_df m = none ∨ ∃ df, tdata.get_df m = some df ∧ df.empty = true)) :
    (build_context tdata msg_types session_id st).context = "No relevant data found." ∧
    (build_context tdata msg_types session_id st).context ≠ "" := by
  have h1 : (build_context tdata msg_types session_id st).context
      = "No relevant data found." := by
    unfold build_context
    rw [bc_fold_all_skipped tdata session_id msg_types [] st [] h]
    rfl
  refine ⟨h1, ?_⟩
  rw [h1]
  decide

/-- Witness for `build_context_no_data`: a fresh store and an accessor
with no data at all. -/
theorem build_context_no_data_witness :
    (build_context ⟨fun _ => none⟩ ["GPS"] "s" SessionStore.start).context
      = "No relevant data found." ∧
    (build_context ⟨fun _ => none⟩ ["GPS"] "s" SessionStore.start).context ≠ "" :=
  build_context_no_data ⟨fun _ => none⟩ ["GPS"] "s" SessionStore.start
    (by intro m hm; exact ⟨rfl, Or.inl rfl⟩)

/-! ## Claim C8 -/

/-- Reading the summary cache after a write: only the written
(session, message-type) pair changes. -/
theorem get_cached_context_cache_context (st : SessionStore) (sid m v sid' m' : String) :
    (st.cache_context sid m v).get_cached_context sid' m' =
      if sid' = sid ∧ m' = m then some v else st.get_cached_context sid' m' := by
  unfold SessionStore.cache_context SessionStore.get_cached_context
  by_cases h1 : sid' = sid
  · subst h1
    simp only [if_pos rfl, Option.getD_some]
    by_cases h2 : m' = m
    · simp [h2]
    · simp [h2]
  · simp [h1]

/-- Every summary string held in the cache is non-empty.  This is the
invariant that makes the `if cached:` truthiness test of `build_context`
equivalent to a presence test. -/
def NonemptyCache (st : SessionStore) : Prop :=
  ∀ s m v, st.get_cached_context s m = some v → v ≠ ""

theorem nonempty_cache_cache_context (st : SessionStore) (hne : NonemptyCache st)
    (sid m w : String) (hw : w ≠ "") : NonemptyCache (st.cache_context sid m w) := by
  intro s' m' v hv
  rw [get_cached_context_cache_context] at hv
  split at hv
  · injection hv with h
    rw [← h]
    exact hw
  · exact hne _ _ _ hv

/-- The fetch path never disturbs a non-empty cache entry: it only writes
the key it was dispatched for, and dispatch only happens when that key's
entry is absent or empty. -/
theorem bcFetch_preserves_entry (tdata : TelemetryData) (sid' s m v : String)
    (hv : v ≠ "") (parts : List String) (st : SessionStore) (f : List String) (m' : String)
    (hst : st.get_cached_context s m = some v)
    (hmiss : st.get_cached_context sid' m' = none ∨ st.get_cached_context sid' m' = some "") :
    (bcFetch tdata sid' parts st f m').2.1.get_cached_context s m = some v := by
  cases hdf : tdata.get_df m' with
  | none => simp only [bcFetch, hdf]; exact hst
  | some df =>
    by_cases hemp : df.empty
    · simp only [bcFetch, hdf, if_pos hemp]
      exact hst
    · simp only [bcFetch, hdf, if_neg hemp]
      rw [get_cached_context_cache_context]
      by_cases heq : s = sid' ∧ m = m'
      · exfalso
        obtain ⟨e1, e2⟩ := heq
        rw [← e1, ← e2, hst] at hmiss
        rcases hmiss with hx | hx
        · exact Option.noConfusion hx
        · injection hx with hx'
          exact hv hx'
      · rw [if_neg heq]
        exact hst

theorem bcStep_preserves_entry (tdata : TelemetryData) (sid' s m v : String)
    (hv : v ≠ "") (acc : List String × SessionStore × List String) (m' : String)
    (hst : acc.2.1.get_cached_context s m = some v) :
    (bcStep tdata sid' acc m').2.1.get_cached_context s m = some v := by
  obtain ⟨parts, st, f⟩ := acc
  cases hc : st.get_cached_context sid' m' with
  | none =>
    simp only [bcStep, hc]
    exact bcFetch_preserves_entry tdata sid' s m v hv parts st f m' hst (Or.inl hc)
  | some c =>
    by_cases hce : c = ""
    · subst hce
      simp only [bcStep, hc, if_pos rfl]
      exact bcFetch_preserves_entry tdata sid' s m v hv parts st f m' hst (Or.inr hc)
    · simp only [bcStep, hc, if_neg hce]
      exact hst

theorem bcFetch_nonempty (tdata : TelemetryData) (sid' : String)
    (parts : List String) (st : SessionStore) (f : List String) (m' : String)
    (h : NonemptyCache st) : NonemptyCache (bcFetch tdata sid' parts st f m').2.1 := by
  cases hdf : tdata.get_df m' with
  | none => simp only [bcFetch, hdf]; exact h
  | some df =>
    by_cases hemp : df.empty
    · simp only [bcFetch, hdf, if_pos hemp]
      exact h
    · simp only [bcFetch, hdf, if_neg hemp]
      exact nonempty_cache_cache_context st h sid' m' _ (summarise_df_ne_empty df)

theorem bcStep_nonempty (tdata : TelemetryData) (sid' : String)
    (acc : List String × SessionStore × List String) (m' : String)
    (h : NonemptyCache acc.2.1) : NonemptyCache (bcStep tdata sid' acc m').2.1 := by
  obtain ⟨parts, st, f⟩ := acc
  cases hc : st.get_cached_context sid' m' with
  | none =>
    simp only [bcStep, hc]
    exact bcFetch_nonempty tdata sid' parts st f m' h
  | some c =>
    by_cases hce : c = ""
    · subst hce
      simp only [bcStep, hc, if_pos rfl]
      exact bcFetch_nonempty tdata sid' parts st f m' h
    · simp only [bcStep, hc, if_neg hce]
      exact h

theorem bc_fold_preserves_entry (tdata : TelemetryData) (sid' s m v : String) (hv : v ≠ "") :
    ∀ (l : List String) (acc : List String × SessionStore × List String),
      acc.2.1.get_cached_context s m = some v →
      (l.foldl (bcStep tdata sid') acc).2.1.get_cached_context s m = some v := by
  intro l
  induction l with
  | nil => exact fun acc h => h
  | cons m' rest ih =>
    intro acc hst
    rw [List.foldl_cons]
    exact ih _ (bcStep_preserves_entry tdata sid' s m v hv acc m' hst)

theorem bc_fold_nonempty (tdata : TelemetryData) (sid' : String) :
    ∀ (l : List String) (acc : List String × SessionStore × List String),
      NonemptyCache acc.2.1 → NonemptyCache (l.foldl (bcStep tdata sid') acc).2.1 := by
  intro l
  induction l with
  | nil => exact fun acc h => h
  | cons m' rest ih =>
    intro acc h
    rw [List.foldl_cons]
    exact ih _ (bcStep_nonempty tdata sid' acc m' h)

theorem build_context_store_eq (tdata : TelemetryData) (ty : List String)
    (sid : String) (st : SessionStore) :
    (build_context tdata ty sid st).store = (ty.foldl (bcStep tdata sid) ([], st, [])).2.1 := by
  unfold build_context
  rcases h : ty.foldl (bcStep tdata sid) ([], st, []) with ⟨p, st', f⟩
  rfl

theorem build_context_parts_eq (tdata : TelemetryData) (ty : List String)
    (sid : String) (st : SessionStore) :
    (build_context tdata ty sid st).parts = (ty.foldl (bcStep tdata sid) ([], st, [])).1 := by
  unfold build_context
  rcases h : ty.foldl (bcStep tdata sid) ([], st, []) with ⟨p, st', f⟩
  rfl

theorem build_context_fetched_eq (tdata : TelemetryData) (ty : List String)
    (sid : String) (st : SessionStore) :
    (build_context tdata ty sid st).fetched = (ty.foldl (bcStep tdata sid) ([], st, [])).2.2 := by
  unfold build_context
  rcases h : ty.foldl (bcStep tdata sid) ([], st, []) with ⟨p, st', f⟩
  rfl

theorem build_context_preserves_entry (tdata : TelemetryData) (ty : List String)
    (sid' s m v : String) (hv : v ≠ "") (st : SessionStore)
    (hst : st.get_cached_context s m = some v) :
    (build_context tdata ty sid' st).store.get_cached_context s m = some v := by
  rw [build_context_store_eq]
  exact bc_fold_preserves_entry tdata sid' s m v hv ty ([], st, []) hst

theorem build_context_nonempty (tdata : TelemetryData) (ty : List String)
    (sid' : String) (st : SessionStore) (h : NonemptyCache st) :
    NonemptyCache (build_context tdata ty sid' st).store := by
  rw [build_context_store_eq]
  exact bc_fold_nonempty tdata sid' ty ([], st, []) h

theorem runCalls_preserves_entry (s m v : String) (hv : v ≠ "") :
    ∀ (calls : List CallSpec) (st : SessionStore),
      st.get_cached_context s m = some v →
      (runCalls st calls).get_cached_context s m = some v := by
  intro calls
  induction calls with
  | nil => exact fun st h => h
  | cons c rest ih =>
    intro st hst
    simp only [runCalls, List.foldl_cons]
    have := ih (build_context c.tdata c.msg_types c.session_id st).store
      (build_context_preserves_entry c.tdata c.msg_types c.session_id s m v hv st hst)
    simpa [runCalls] using this

theorem bcFetch_fetched (tdata : TelemetryData) (sid : String)
    (parts : List String) (st : SessionStore) (f : List String) (m' : String) :
    (bcFetch tdata sid parts st f m').2.2 = f ++ [m'] := by
  cases hdf : tdata.get_df m' with
  | none => simp only [bcFetch, hdf]
  | some df =>
    by_cases hemp : df.empty
    · simp only [bcFetch, hdf, if_pos hemp]
    · simp only [bcFetch, hdf, if_neg hemp]

theorem bcStep_fetched (tdata : TelemetryData) (sid : String)
    (acc : List String × SessionStore × List String) (m' : String) :
    (bcStep tdata sid acc m').2.2 = acc.2.2 ∨
    (bcStep tdata sid acc m').2.2 = acc.2.2 ++ [m'] := by
  obtain ⟨parts, st, f⟩ := acc
  cases hc : st.get_cached_context sid m' with
  | none =>
    right
    simp only [bcStep, hc]
    exact bcFetch_fetched tdata sid parts st f m'
  | some c =>
    by_cases hce : c = ""
    · right
      subst hce
      simp only [bcStep, hc, if_pos rfl]
      exact bcFetch_fetched tdata sid parts st f m'
    · left
      simp only [bcStep, hc, if_neg hce]

theorem bcFetch_parts_mono (tdata : TelemetryData) (sid : String)
    (parts : List String) (st : SessionStore) (f : List String) (m' p : String)
    (hp : p ∈ parts) : p ∈ (bcFetch tdata sid parts st f m').1 := by
  cases hdf : tdata.get_df m' with
  | none => simp only [bcFetch, hdf]; exact hp
  | some df =>
    by_cases hemp : df.empty
    · simp only [bcFetch, hdf, if_pos hemp]
      exact hp
    · simp only [bcFetch, hdf, if_neg hemp]
      exact List.mem_append_left _ hp

theorem bcStep_parts_mono (tdata : TelemetryData) (sid : String)
    (acc : List String × SessionStore × List String) (m' p : String)
    (hp : p ∈ acc.1) : p ∈ (bcStep tdata sid acc m').1 := by
  obtain ⟨parts, st, f⟩ := acc
  cases hc : st.get_cached_context sid m' with
  | none =>
    simp only [bcStep, hc]
    exact bcFetch_parts_mono tdata sid parts st f m' p hp
  | some c =>
    by_cases hce : c = ""
    · subst hce
      simp only [bcStep, hc, if_pos rfl]
      exact bcFetch_parts_mono tdata sid parts st f m' p hp
    · simp only [bcStep, hc, if_neg hce]
      exact List.mem_append_left _ hp

/-- A loop iteration whose message type has a (truthy) cached summary emits
the cached section verbatim, fetches nothing and leaves the store alone. -/
theorem bcStep_hit (tdata : TelemetryData) (s m v : String)
    (acc : List String × SessionStore × List String)
    (hst : acc.2.1.get_cached_context s m = some v) (hv : v ≠ "") :
    bcStep tdata s acc m =
      (acc.1 ++ ["### " ++ m ++ " (cached)\n" ++ v], acc.2.1, acc.2.2) := by
  obtain ⟨parts, st, f⟩ := acc
  simp only [bcStep, hst, if_neg hv]

theorem bc_fold_hit (tdata : TelemetryData) (s m v : String) (hv : v ≠ "") :
    ∀ (l : List String) (acc : List String × SessionStore × List String),
      acc.2.1.get_cached_context s m = some v →
      (l.foldl (bcStep tdata s) acc).2.1.get_cached_context s m = some v ∧
      (∀ x ∈ (l.foldl (bcStep tdata s) acc).2.2, x ∈ acc.2.2 ∨ x ≠ m) ∧
      (∀ p ∈ acc.1, p ∈ (l.foldl (bcStep tdata s) acc).1) ∧
      (m ∈ l → ("### " ++ m ++ " (cached)\n" ++ v) ∈ (l.foldl (bcStep tdata s) acc).1) := by
  intro l
  induction l with
  | nil =>
    intro acc hst
    exact ⟨hst, fun x hx => Or.inl hx, fun p hp => hp,
      fun hm => absurd hm (List.not_mem_nil m)⟩
  | cons m' rest ih =>
    intro acc hst
    rw [List.foldl_cons]
    have hpres := bcStep_preserves_entry tdata s s m v hv acc m' hst
    obtain ⟨e1, e2, e3, e4⟩ := ih (bcStep tdata s acc m') hpres
    refine ⟨e1, ?_, ?_, ?_⟩
    · intro x hx
      rcases e2 x hx with hx' | hx'
      · by_cases hmm : m' = m
        · subst hmm
          rw [bcStep_hit tdata s m' v acc hst hv] at hx'
          exact Or.inl hx'
        · rcases bcStep_fetched tdata s acc m' with he | he
          · rw [he] at hx'
            exact Or.inl hx'
          · rw [he] at hx'
            rcases List.mem_append.mp hx' with hxa | hxa
            · exact Or.inl hxa
            · rw [List.mem_singleton] at hxa
              subst hxa
              exact Or.inr hmm
      · exact Or.inr hx'
    · intro p hp
      exact e3 p (bcStep_parts_mono tdata s acc m' p hp)
    · intro hm
      rcases List.mem_cons.mp hm with heq | hmem
      · subst heq
        refine e3 _ ?_
        rw [bcStep_hit tdata s m v acc hst hv]
        exact List.mem_append_right _ (List.mem_singleton_self _)
      · exact e4 hmem

/-- **C8**: once a `build_context` call has computed and cached the summary
`v` for `(s, m)`, the entry survives any sequence of later `build_context`
calls unchanged, and any later call for the same session that requests `m`
does not fetch the table (so does not recompute the summary) and emits the
cached summary string verbatim in its `(cached)` section. -/
theorem build_context_cached_reuse
    (st₀ : SessionStore) (h₀ : NonemptyCache st₀)
    (td₁ : TelemetryData) (ty₁ : List String) (s m v : String)
    (h₁ : (build_context td₁ ty₁ s st₀).store.get_cached_context s m = some v)
    (calls : List CallSpec) (td₂ : TelemetryData) (ty₂ : List String) (hm : m ∈ ty₂) :
    (runCalls (build_context td₁ ty₁ s st₀).store calls).get_cached_context s m = some v ∧
    m ∉ (build_context td₂ ty₂ s
      (runCalls (build_context td₁ ty₁ s st₀).store calls)).fetched ∧
    ("### " ++ m ++ " (cached)\n" ++ v) ∈ (build_context td₂ ty₂ s
      (runCalls (build_context td₁ ty₁ s st₀).store calls)).parts ∧
    (build_context td₂ ty₂ s
      (runCalls (build_context td₁ ty₁ s st₀).store calls)).store.get_cached_context s m
      = some v := by
  have hne1 : NonemptyCache (build_context td₁ ty₁ s st₀).store :=
    build_context_nonempty td₁ ty₁ s st₀ h₀
  have hv : v ≠ "" := hne1 s m v h₁
  have hmid : (runCalls (build_context td₁ ty₁ s st₀).store calls).get_cached_context s m
      = some v :=
    runCalls_preserves_entry s m v hv calls (build_context td₁ ty₁ s st₀).store h₁
  obtain ⟨e1, e2, e3, e4⟩ := bc_fold_hit td₂ s m v hv ty₂
    ([], runCalls (build_context td₁ ty₁ s st₀).store calls, []) hmid
  refine ⟨hmid, ?_, ?_, ?_⟩
  · rw [build_context_fetched_eq]
    intro hmem
    rcases e2 m hmem with hx | hx
    · exact List.not_mem_nil m hx
    · exact hx rfl
  · rw [build_context_parts_eq]
    exact e4 hm
  · rw [build_context_store_eq]
    exact e1

/-- The concrete one-row frame used by the C8 witness. -/
def c8df : DataFrame := ⟨[("a", ColKind.numeric)], [[Val.num 1]]⟩

/-- A telemetry accessor that resolves only `"GPS"`, to `c8df`. -/
def c8td : TelemetryData := ⟨fun m => if m = "GPS" then some c8df else none⟩

/-- The summary `build_context` computes and caches for `c8df`. -/
def c8summary : String := "[\x7b\x22a\x22:1\x7d]"

/-- Witness for `build_context_cached_reuse`: a first call computes and
caches the `"GPS"` summary, a second call (whose accessor has no data at
all) reuses it verbatim without fetching. -/
theorem build_context_cached_reuse_witness :
    (runCalls (build_context c8td ["GPS"] "s" SessionStore.start).store []).get_cached_context
      "s" "GPS" = some c8summary ∧
    "GPS" ∉ (build_context ⟨fun _ => none⟩ ["GPS"] "s"
      (runCalls (build_context c8td ["GPS"] "s" SessionStore.start).store [])).fetched ∧
    ("### " ++ "GPS" ++ " (cached)\n" ++ c8summary) ∈ (build_context ⟨fun _ => none⟩ ["GPS"] "s"
      (runCalls (build_context c8td ["GPS"] "s" SessionStore.start).store [])).parts ∧
    (build_context ⟨fun _ => none⟩ ["GPS"] "s"
      (runCalls (build_context c8td ["GPS"] "s" SessionStore.start).store [])).store.get_cached_context
      "s" "GPS" = some c8summary :=
  build_context_cached_reuse SessionStore.start
    (by intro s m v h; exact Option.noConfusion h)
    c8td ["GPS"] "s" "GPS" c8summary rfl [] ⟨fun _ => none⟩ ["GPS"]
    (List.mem_singleton_self "GPS")

/-! ## Claim C9 -/

theorem find?_filter_ne (k k' : InferKey) (hkk : ¬ k = k') :
    ∀ (l : List (InferKey × Finset String)),
      (l.filter (fun e2 => decide (e2.1 ≠ k'))).find? (fun e => decide (e.1 = k))
        = l.find? (fun e => decide (e.1 = k)) := by
  intro l
  induction l with
  | nil => rfl
  | cons e t ih =>
    rw [List.filter_cons]
    by_cases he : e.1 = k'
    · have hd1 : (decide (e.1 ≠ k') : Bool) = false := by simp [he]
      have hd2 : (decide (e.1 = k) : Bool) = false := by
        simp only [decide_eq_false_iff_not]
        rw [he]
        intro hh
        exact hkk hh.symm
      rw [hd1, if_neg (by simp), ih, List.find?_cons_of_neg _ (by simp [hd2])]
    · have hd1 : (decide (e.1 ≠ k') : Bool) = true := by simp [he]
      rw [hd1, if_pos rfl]
      by_cases hek : e.1 = k
      · rw [List.find?_cons, List.find?_cons,
          show (decide (e.1 = k) : Bool) = true from by simp [hek]]
      · have hd2 : (decide (e.1 = k) : Bool) = false := by simp [hek]
        rw [List.find?_cons_of_neg _ (by simp [hd2]),
          List.find?_cons_of_neg _ (by simp [hd2])]
        exact ih

theorem find?_take (p : InferKey × Finset String → Bool) :
    ∀ (l : List (InferKey × Finset String)) (n : Nat) (e : InferKey × Finset String),
      (l.take n).find? p = some e → l.find? p = some e := by
  intro l
  induction l with
  | nil => intro n e h; simp at h
  | cons a t ih =>
    intro n e h
    cases n with
    | zero => simp at h
    | succ n' =>
      rw [List.take_succ_cons] at h
      cases hpa : p a with
      | true =>
        rw [List.find?_cons_of_pos _ hpa] at h
        rw [List.find?_cons_of_pos _ hpa]
        exact h
      | false =>
        rw [List.find?_cons_of_neg _ (by simp [hpa])] at h
        rw [List.find?_cons_of_neg _ (by simp [hpa])]
        exact ih n' e h

theorem find?_filter_length (k : InferKey) :
    ∀ (l : List (InferKey × Finset String)) (e : InferKey × Finset String),
      l.find? (fun e2 => decide (e2.1 = k)) = some e →
      (l.filter (fun e2 => decide (e2.1 ≠ k))).length < l.length := by
  intro l
  induction l with
  | nil => intro e h; simp at h
  | cons a t ih =>
    intro e h
    by_cases ha : a.1 = k
    · have hd1 : (decide (a.1 ≠ k) : Bool) = false := by simp [ha]
      simp only [List.filter_cons, hd1, Bool.false_eq_true, if_false, List.length_cons]
      exact Nat.lt_succ_of_le (List.length_filter_le _ t)
    · have hd2 : (decide (a.1 = k) : Bool) = false := by simp [ha]
      rw [List.find?_cons_of_neg _ (by simp [hd2])] at h
      have hd1 : (decide (a.1 ≠ k) : Bool) = true := by simp [ha]
      simp only [List.filter_cons, hd1, if_true, List.length_cons]
      exact Nat.succ_lt_succ (ih e h)

/-- A cache hit: the memoized result is returned, the backend is not
invoked (the log is unchanged), the cache does not grow, and the entry is
still cached afterwards. -/
theorem lruCall_hit (oracle : Nat → String → BackendOutcome) (st : LruState)
    (q : String) (recent : List String) (types : Finset String) (v : Finset String)
    (h : lruLookup st (q, recent, types) = some v) :
    (infer_message_types_llm_cached oracle st q recent types).1 = .ok v ∧
    (infer_message_types_llm_cached oracle st q recent types).2.log = st.log ∧
    (infer_message_types_llm_cached oracle st q recent types).2.entries.length
      ≤ st.entries.length ∧
    lruLookup (infer_message_types_llm_cached oracle st q recent types).2
      (q, recent, types) = some v := by
  cases hf : st.entries.find? (fun e => decide (e.1 = (q, recent, types))) with
  | none =>
    rw [lruLookup, hf] at h
    exact absurd h (by simp)
  | some e =>
    rw [lruLookup, hf] at h
    simp only [Option.map_some'] at h
    injection h with h2
    have hlt := find?_filter_length (q, recent, types) st.entries e hf
    refine ⟨?_, ?_, ?_, ?_⟩
    · simp only [infer_message_types_llm_cached, hf]
      rw [h2]
    · simp [infer_message_types_llm_cached, hf]
    · simp only [infer_message_types_llm_cached, hf, List.length_cons]
      omega
    · simp only [infer_message_types_llm_cached, hf]
      have hd : (decide (((q, recent, types) : InferKey) = (q, recent, types)) : Bool)
          = true := by simp
      simp [lruLookup, List.find?_cons, hd, h2]

/-- One intermediate call either leaves a cached entry's value intact or
evicts the entry; it never silently changes its value. -/
theorem lruCall_stability (oracle : Nat → String → BackendOutcome) (st : LruState)
    (k : InferKey) (v : Finset String) (q : String) (recent : List String)
    (types : Finset String) (h : lruLookup st k = some v) :
    lruLookup (infer_message_types_llm_cached oracle st q recent types).2 k = some v ∨
    lruLookup (infer_message_types_llm_cached oracle st q recent types).2 k = none := by
  by_cases hk : (q, recent, types) = ( k : InferKey)
  · left
    subst hk
    exact (lruCall_hit oracle st q recent types v h).2.2.2
  · cases hf : st.entries.find? (fun e => decide (e.1 = (q, recent, types))) with
    | some e =>
      left
      simp only [infer_message_types_llm_cached, hf]
      rw [lruLookup] at h ⊢
      rw [List.find?_cons_of_neg _ (by simpa using hk)]
      rw [find?_filter_ne k (q, recent, types) (fun hh => hk hh.symm)]
      exact h
    | none =>
      cases hinf : infer_message_types_llm (oracle st.log.length) q recent types with
      | error err =>
        left
        simp only [infer_message_types_llm_cached, hf, hinf]
        simpa [lruLookup] using h
      | ok v' =>
        cases hfind : ((((q, recent, types), v') :: st.entries).take 256).find?
            (fun e => decide (e.1 = k)) with
        | none =>
          right
          simp only [infer_message_types_llm_cached, hf, hinf]
          rw [lruLookup]
          simp only at hfind ⊢
          rw [hfind]
          rfl
        | some e =>
          left
          have h1 := find?_take _ _ _ _ hfind
          rw [List.find?_cons_of_neg _ (by simpa using hk)] at h1
          rw [lruLookup, h1] at h
          simp only [infer_message_types_llm_cached, hf, hinf]
          rw [lruLookup]
          simp only at hfind ⊢
          rw [hfind]
          exact h

/-- While a key's entry is cached, an intermediate call never adds that key
to the backend-invocation log. -/
theorem lruCall_log_count (oracle : Nat → String → BackendOutcome) (st : LruState)
    (k : InferKey) (v : Finset String) (q : String) (recent : List String)
    (types : Finset String) (h : lruLookup st k = some v) :
    (infer_message_types_llm_cached oracle st q recent types).2.log.filter
        (fun x => decide (x = k))
      = st.log.filter (fun x => decide (x = k)) := by
  cases hf : st.entries.find? (fun e => decide (e.1 = (q, recent, types))) with
  | some e => simp only [infer_message_types_llm_cached, hf]
  | none =>
    have hk : ¬ ((q, recent, types) : InferKey) = k := by
      intro hh
      rw [hh] at hf
      rw [lruLookup, hf] at h
      exact absurd h (by simp)
    have hd : (decide (((q, recent, types) : InferKey) = k) : Bool) = false := by
      simp [hk]
    cases hinf : infer_message_types_llm (oracle st.log.length) q recent types with
    | ok v' =>
      simp only [infer_message_types_llm_cached, hf, hinf]
      rw [List.filter_append]
      simp [hd]
    | error err =>
      simp only [infer_message_types_llm_cached, hf, hinf]
      rw [List.filter_append]
      simp [hd]

/-- The cache never exceeds its 256-entry capacity. -/
theorem lruCall_entries_le (oracle : Nat → String → BackendOutcome) (st : LruState)
    (q : String) (recent : List String) (types : Finset String)
    (h : st.entries.length ≤ 256) :
    (infer_message_types_llm_cached oracle st q recent types).2.entries.length ≤ 256 := by
  cases hf : st.entries.find? (fun e => decide (e.1 = (q, recent, types))) with
  | some e =>
    have hlt := find?_filter_length (q, recent, types) st.entries e hf
    simp only [infer_message_types_llm_cached, hf, List.length_cons]
    omega
  | none =>
    cases hinf : infer_message_types_llm (oracle st.log.length) q recent types with
    | ok v' =>
      simp only [infer_message_types_llm_cached, hf, hinf]
      exact List.length_take_le 256 _
    | error err =>
      simp only [infer_message_types_llm_cached, hf, hinf]
      exact h

theorem runInfer_entries_le (oracle : Nat → String → BackendOutcome) :
    ∀ (ks : List InferKey) (st : LruState),
      st.entries.length ≤ 256 → (runInferCalls oracle st ks).entries.length ≤ 256 := by
  intro ks
  induction ks with
  | nil => exact fun st h => h
  | cons k' rest ih =>
    intro st h
    simp only [runInferCalls, List.foldl_cons]
    have := ih (infer_message_types_llm_cached oracle st k'.1 k'.2.1 k'.2.2).2
      (lruCall_entries_le oracle st k'.1 k'.2.1 k'.2.2 h)
    simpa [runInferCalls] using this

/-- Running intermediate calls during which the key's entry is never
evicted preserves the cached value and adds no invocation of that key to
the backend log. -/
theorem runInfer_preserved (oracle : Nat → String → BackendOutcome)
    (k : InferKey) (v : Finset String) :
    ∀ (ks : List InferKey) (st : LruState),
      lruLookup st k = some v →
      (∀ i, lruLookup (runInferCalls oracle st (ks.take i)) k ≠ none) →
      lruLookup (runInferCalls oracle st ks) k = some v ∧
      (runInferCalls oracle st ks).log.filter (fun x => decide (x = k))
        = st.log.filter (fun x => decide (x = k)) := by
  intro ks
  induction ks with
  | nil => exact fun st h1 _ => ⟨h1, rfl⟩
  | cons k' rest ih =>
    intro st h1 hsurv
    have hrun1 : runInferCalls oracle st ((k' :: rest).take 1) =
        (infer_message_types_llm_cached oracle st k'.1 k'.2.1 k'.2.2).2 := by
      simp [runInferCalls, List.take_succ_cons]
    have h2 : lruLookup (infer_message_types_llm_cached oracle st k'.1 k'.2.1 k'.2.2).2 k
        = some v := by
      rcases lruCall_stability oracle st k v k'.1 k'.2.1 k'.2.2 h1 with hh | hh
      · exact hh
      · exfalso
        have hs := hsurv 1
        rw [hrun1] at hs
        exact hs hh
    have hlog := lruCall_log_count oracle st k v k'.1 k'.2.1 k'.2.2 h1
    have hsurv' : ∀ i, lruLookup (runInferCalls oracle
        (infer_message_types_llm_cached oracle st k'.1 k'.2.1 k'.2.2).2 (rest.take i)) k
        ≠ none := by
      intro i
      have hs := hsurv (i + 1)
      rw [List.take_succ_cons] at hs
      simpa [runInferCalls] using hs
    obtain ⟨r1, r2⟩ := ih _ h2 hsurv'
    constructor
    · simpa [runInferCalls] using r1
    · have hstep : runInferCalls oracle st (k' :: rest) = runInferCalls oracle
          (infer_message_types_llm_cached oracle st k'.1 k'.2.1 k'.2.2).2 rest := by
        simp [runInferCalls]
      rw [hstep, r2, hlog]

/-- Evaluating the very first cached call, when the body returns normally:
the result is cached and the single backend invocation is logged. -/
theorem lruCall_start_ok (oracle : Nat → String → BackendOutcome)
    (q : String) (recent : List String) (types : Finset String) (v : Finset String)
    (hinf : infer_message_types_llm (oracle 0) q recent types = .ok v) :
    infer_message_types_llm_cached oracle LruState.start q recent types
      = (.ok v, ⟨[((q, recent, types), v)], [(q, recent, types)]⟩) := by
  simp only [infer_message_types_llm_cached, LruState.start, List.find?_nil,
    List.length_nil, hinf, List.nil_append]
  rw [List.take_of_length_le (by simp)]

/-- Evaluating the very first cached call, when the body raises: nothing is
cached, the invocation is still logged, the exception propagates. -/
theorem lruCall_start_err (oracle : Nat → String → BackendOutcome)
    (q : String) (recent : List String) (types : Finset String) (err : PyErr)
    (hinf : infer_message_types_llm (oracle 0) q recent types = .error err) :
    infer_message_types_llm_cached oracle LruState.start q recent types
      = (.error err, ⟨[], [(q, recent, types)]⟩) := by
  simp only [infer_message_types_llm_cached, LruState.start, List.find?_nil,
    List.length_nil, hinf, List.nil_append]

/-- **C9**: starting from an empty memoization cache, call the selector on
a key, run any intermediate calls during which the key's entry is never
evicted, and call the selector on the same key again: the second call
returns the same result as the first, the backend is not invoked by the
second call (its log is unchanged), the backend was invoked exactly once
for that key over the whole sequence, and the cache never exceeds its
256-entry LRU capacity. -/
theorem infer_cached_memoization (oracle : Nat → String → BackendOutcome)
    (question : String) (recent_user_msgs : List String) (types : Finset String)
    (ks : List InferKey)
    (hsurv : ∀ i, lruLookup (runInferCalls oracle
        (infer_message_types_llm_cached oracle LruState.start question recent_user_msgs
          types).2 (ks.take i)) (question, recent_user_msgs, types) ≠ none) :
    (infer_message_types_llm_cached oracle
        (runInferCalls oracle (infer_message_types_llm_cached oracle LruState.start
          question recent_user_msgs types).2 ks) question recent_user_msgs types).1
      = (infer_message_types_llm_cached oracle LruState.start question recent_user_msgs
          types).1 ∧
    ((infer_message_types_llm_cached oracle
        (runInferCalls oracle (infer_message_types_llm_cached oracle LruState.start
          question recent_user_msgs types).2 ks) question recent_user_msgs
        types).2.log.filter
        (fun x => decide (x = (question, recent_user_msgs, types)))).length = 1 ∧
    (infer_message_types_llm_cached oracle
        (runInferCalls oracle (infer_message_types_llm_cached oracle LruState.start
          question recent_user_msgs types).2 ks) question recent_user_msgs types).2.log
      = (runInferCalls oracle (infer_message_types_llm_cached oracle LruState.start
          question recent_user_msgs types).2 ks).log ∧
    (infer_message_types_llm_cached oracle
        (runInferCalls oracle (infer_message_types_llm_cached oracle LruState.start
          question recent_user_msgs types).2 ks) question recent_user_msgs
        types).2.entries.length ≤ 256 := by
  have h0 := hsurv 0
  rw [List.take_zero] at h0
  simp only [runInferCalls, List.foldl_nil] at h0
  cases hinf : infer_message_types_llm (oracle 0) question recent_user_msgs types with
  | error err =>
    exfalso
    rw [lruCall_start_err oracle question recent_user_msgs types err hinf] at h0
    exact h0 rfl
  | ok v =>
    have hcall := lruCall_start_ok oracle question recent_user_msgs types v hinf
    have h1 : lruLookup (infer_message_types_llm_cached oracle LruState.start question
        recent_user_msgs types).2 (question, recent_user_msgs, types) = some v := by
      rw [hcall]
      have hd : (decide (((question, recent_user_msgs, types) : InferKey)
          = (question, recent_user_msgs, types)) : Bool) = true := by simp
      simp [lruLookup, List.find?_cons, hd]
    obtain ⟨hmid, hlog⟩ := runInfer_preserved oracle (question, recent_user_msgs, types) v ks
      (infer_message_types_llm_cached oracle LruState.start question recent_user_msgs
        types).2 h1 hsurv
    obtain ⟨g1, g2, g3, g4⟩ := lruCall_hit oracle _ question recent_user_msgs types v hmid
    refine ⟨?_, ?_, g2, ?_⟩
    · rw [g1, hcall]
    · rw [g2, hlog, hcall]
      have hd : (decide (((question, recent_user_msgs, types) : InferKey)
          = (question, recent_user_msgs, types)) : Bool) = true := by simp
      simp [List.filter_cons, hd]
    · have e0 : (LruState.start).entries.length ≤ 256 := by simp [LruState.start]
      have e1 := lruCall_entries_le oracle LruState.start question recent_user_msgs types e0
      have e2 := runInfer_entries_le oracle ks _ e1
      exact lruCall_entries_le oracle _ question recent_user_msgs types e2

/-- A deterministic backend for the C9 witness: every invocation selects
`["GPS"]` through the structured function call. -/
def c9oracle : Nat → String → BackendOutcome :=
  fun _ _ => .response (some ⟨.parsed (some ["GPS"])⟩)

/-- Witness for `infer_cached_memoization`: first call on
`("q", (), \x7b"GPS"\x7d)` from the empty cache, no intermediate calls, then a
repeated call. -/
theorem infer_cached_memoization_witness :
    (infer_message_types_llm_cached c9oracle
        (runInferCalls c9oracle (infer_message_types_llm_cached c9oracle LruState.start
          "q" [] {"GPS"}).2 []) "q" [] {"GPS"}).1
      = (infer_message_types_llm_cached c9oracle LruState.start "q" [] {"GPS"}).1 ∧
    ((infer_message_types_llm_cached c9oracle
        (runInferCalls c9oracle (infer_message_types_llm_cached c9oracle LruState.start
          "q" [] {"GPS"}).2 []) "q" [] {"GPS"}).2.log.filter
        (fun x => decide (x = ("q", [], {"GPS"})))).length = 1 ∧
    (infer_message_types_llm_cached c9oracle
        (runInferCalls c9oracle (infer_message_types_llm_cached c9oracle LruState.start
          "q" [] {"GPS"}).2 []) "q" [] {"GPS"}).2.log
      = (runInferCalls c9oracle (infer_message_types_llm_cached c9oracle LruState.start
          "q" [] {"GPS"}).2 []).log ∧
    (infer_message_types_llm_cached c9oracle
        (runInferCalls c9oracle (infer_message_types_llm_cached c9oracle LruState.start
          "q" [] {"GPS"}).2 []) "q" [] {"GPS"}).2.entries.length ≤ 256 :=
  infer_cached_memoization c9oracle "q" [] {"GPS"} []
    (by
      intro i
      rw [List.take_nil]
      simp only [runInferCalls, List.foldl_nil]
      rw [lruCall_start_ok c9oracle "q" [] {"GPS"} {"GPS"} rfl]
      have hd : (decide ((("q", [], {"GPS"}) : InferKey) = ("q", [], {"GPS"})) : Bool)
          = true := by simp
      simp [lruLookup, List.find?_cons, hd])
